import Mathlib

/-!
Verification of the hyprgrd Hyprland plugin (plugin/helpers.hpp and
plugin/main.cpp): the command encoders, the socket-path resolution and the
swipe gesture-forwarding state machine, together with proofs settling the
spec claims about them.

Conventions of the embedding:
* C++ strings are Lean strings; character classification mirrors the C
  locale used by the code.
* `std::istringstream` integer extraction is modelled by `readIntFrom`
  (skip stream whitespace, optional sign, maximal digit run, failure on
  missing digits or on values outside the 32-bit int range, as C++11
  num_get specifies), and string extraction by `readTokenFrom`.
* `getenv` is modelled by an `Option String` argument: `none` when the
  variable is unset, `some v` when set (possibly to the empty string).
* The gesture callbacks' interaction with the OS is modelled by an
  `Option Nat` connect oracle (the file descriptor a successful
  socket+connect would yield) and by recording the socket operations a
  call performs as a list of `IOEvent`s.
* IEEE-754 doubles are modelled by the exact rational value they denote;
  snprintf %.6f is modelled as correctly rounded fixed-point rendering
  with six fractional digits (ties to even), matching glibc, and the
  256-byte stack buffer of buildSwipeUpdateJson by truncating the
  rendered message to its first 255 characters.
-/

namespace Hyprgrd

/-! ### String helpers (helpers.hpp) -/

/-- The whitespace set used by `trim` in helpers.hpp: space, tab, CR, LF. -/
def trimWs (c : Char) : Bool :=
  c = ' ' || c = '\t' || c = '\r' || c = '\n'

/-- `trim`: drop leading and trailing whitespace, as in helpers.hpp
(`find_first_not_of` / `find_last_not_of` over the set above). -/
def trim (s : String) : String :=
  String.mk (((s.data.dropWhile trimWs).reverse.dropWhile trimWs).reverse)

/-- C-locale `toupper` restricted to ASCII, as applied by the plugin. -/
def toupperC (c : Char) : Char :=
  if 'a' ≤ c && c ≤ 'z' then Char.ofNat (c.toNat - 32) else c

/-- `capitalize`: upper-case the first character only (helpers.hpp). -/
def capitalize (s : String) : String :=
  match s.data with
  | [] => s
  | c :: cs => String.mk (toupperC c :: cs)

/-- Result of building a dispatcher command (struct CommandResult). -/
structure CommandResult where
  ok : Bool
  value : String
deriving DecidableEq, Repr

/-- `isValidDirection` from helpers.hpp: exactly the four capitalized
direction spellings. -/
def isValidDirection (dir : String) : Bool :=
  dir == "Left" || dir == "Right" || dir == "Up" || dir == "Down"

/-- `buildGoJson` from helpers.hpp. -/
def buildGoJson (arg : String) : CommandResult :=
  let dir := capitalize (trim arg)
  if isValidDirection dir then
    ⟨true, "\x7b\"Go\":\"" ++ dir ++ "\"\x7d"⟩
  else
    ⟨false, "invalid direction: " ++ arg⟩

/-- `buildMoveGoJson` from helpers.hpp. -/
def buildMoveGoJson (arg : String) : CommandResult :=
  let dir := capitalize (trim arg)
  if isValidDirection dir then
    ⟨true, "\x7b\"MoveWindowAndGo\":\"" ++ dir ++ "\"\x7d"⟩
  else
    ⟨false, "invalid direction: " ++ arg⟩

/-- `buildMoveToMonitorJson` from helpers.hpp. -/
def buildMoveToMonitorJson (arg : String) : CommandResult :=
  let dir := capitalize (trim arg)
  if isValidDirection dir then
    ⟨true, "\x7b\"MoveWindowToMonitor\":\"" ++ dir ++ "\"\x7d"⟩
  else
    ⟨false, "invalid direction: " ++ arg⟩

/-- `socketPath` from helpers.hpp: `getenv` is modelled by the argument,
`none` meaning unset.  The code only tests the pointer for NULL, so a
variable set to the empty string takes the first branch. -/
def socketPath (xdgRuntimeDir : Option String) : String :=
  match xdgRuntimeDir with
  | some runtime => runtime ++ "/hyprgrd.sock"
  | none => "/tmp/hyprgrd.sock"

/-! ### istringstream extraction model -/

/-- The C-locale `isspace` set used by stream extraction: space, tab,
LF, VT, FF, CR.  Note this is wider than `trimWs` (VT and FF). -/
def streamWs (c : Char) : Bool :=
  c = ' ' || c = '\t' || c = '\n' || c = '\x0b' || c = '\x0c' || c = '\r'

/-- Value of a run of decimal digit characters. -/
def digitsToNat (ds : List Char) : Nat :=
  ds.foldl (fun a c => a * 10 + (c.toNat - 48)) 0

/-- The digit-run part of `iss >> (int&)`, after sign processing: read a
maximal run of decimal digits from `body`.  Extraction fails (`none`)
when no digit is present, and also when the magnitude exceeds `bound`,
the largest representable magnitude for the processed sign (C++11
num_get sets failbit on out-of-range values).  `sgn` records whether a
minus sign was consumed. -/
def readSigned (sgn : Bool) (bound : Nat) (body : List Char) : Option (Int × List Char) :=
  let ds := body.takeWhile Char.isDigit
  let rem := body.dropWhile Char.isDigit
  if ds = [] then none
  else if bound < digitsToNat ds then none
  else some ((if sgn then -(digitsToNat ds : Int) else (digitsToNat ds : Int)), rem)

/-- The sign-and-digits part of `iss >> (int&)`, applied after the
initial whitespace skip: an optional single sign, then a digit run,
range-checked against a 32-bit `int`. -/
def readIntCore (cs1 : List Char) : Option (Int × List Char) :=
  if cs1.head? = some '-' then readSigned true 2147483648 cs1.tail
  else if cs1.head? = some '+' then readSigned false 2147483647 cs1.tail
  else readSigned false 2147483647 cs1

/-- `iss >> (int&)`: skip whitespace, then read a signed digit run. -/
def readIntFrom (cs : List Char) : Option (Int × List Char) :=
  readIntCore (cs.dropWhile streamWs)

/-- `iss >> (std::string&)`: skip whitespace, read a maximal run of
non-whitespace characters; fails when that run is empty. -/
def readTokenFrom (cs : List Char) : Option (List Char × List Char) :=
  let cs1 := cs.dropWhile streamWs
  let t := cs1.takeWhile (fun c => !streamWs c)
  if t = [] then none else some (t, cs1.dropWhile (fun c => !streamWs c))

/-- `std::to_string` on an `int` value. -/
def intStr (v : Int) : String :=
  if v < 0 then "-" ++ Nat.repr v.natAbs else Nat.repr v.natAbs

/-- `buildSwitchJson` from helpers.hpp: two stream extractions, both
values required non-negative, and no check for leftover input. -/
def buildSwitchJson (arg : String) : CommandResult :=
  match readIntFrom (trim arg).data with
  | none => ⟨false, "expected: <col> <row> (non-negative integers)"⟩
  | some (col, rest1) =>
    match readIntFrom rest1 with
    | none => ⟨false, "expected: <col> <row> (non-negative integers)"⟩
    | some (row, _) =>
      if col < 0 ∨ row < 0 then
        ⟨false, "expected: <col> <row> (non-negative integers)"⟩
      else
        ⟨true, "\x7b\"SwitchTo\":\x7b\"x\":" ++ intStr col ++ ",\"y\":" ++
               intStr row ++ "\x7d\x7d"⟩

/-- `buildMoveToMonitorIndexJson` from helpers.hpp: one stream
extraction, the value required non-negative, then a leftover check that
rejects any further token. -/
def buildMoveToMonitorIndexJson (arg : String) : CommandResult :=
  match readIntFrom (trim arg).data with
  | none => ⟨false, "expected: <n> (non-negative integer)"⟩
  | some (idx, rest) =>
    if idx < 0 then ⟨false, "expected: <n> (non-negative integer)"⟩
    else
      match readTokenFrom rest with
      | some _ => ⟨false, "expected a single non-negative integer"⟩
      | none => ⟨true, "\x7b\"MoveWindowToMonitorIndex\":" ++ intStr idx ++ "\x7d"⟩

/-! ### Swipe event builders (helpers.hpp) -/

/-- `buildSwipeBeginJson` from helpers.hpp. -/
def buildSwipeBeginJson (fingers : Nat) : String :=
  "\x7b\"SwipeBegin\":\x7b\"fingers\":" ++ Nat.repr fingers ++ "\x7d\x7d"

/-- `buildSwipeEndJson` from helpers.hpp. -/
def buildSwipeEndJson : String := "\"SwipeEnd\""

/-- The exact value of a finite IEEE-754 double: every such value is a
dyadic rational `num / 2^exp`.  (The sign of a negative zero is not
modelled; no claim depends on it.) -/
structure Dyadic where
  num : Int
  exp : Nat
deriving DecidableEq, Repr

/-- Negation of a dyadic value. -/
def Dyadic.neg (d : Dyadic) : Dyadic := ⟨-d.num, d.exp⟩

/-- The six zero-padded digits of `m % 10^6`, the fractional field
produced by `%.6f`. -/
def sixDigits (m : Nat) : String :=
  String.mk [Nat.digitChar (m / 100000 % 10), Nat.digitChar (m / 10000 % 10),
             Nat.digitChar (m / 1000 % 10), Nat.digitChar (m / 100 % 10),
             Nat.digitChar (m / 10 % 10), Nat.digitChar (m % 10)]

/-- `|d| * 10^6` rounded to the nearest integer, ties to even,
as glibc printf rounds decimal conversions of finite doubles. -/
def round6 (d : Dyadic) : Nat :=
  let a := d.num.natAbs * 1000000
  let den := 2 ^ d.exp
  let fl := a / den
  let r := a % den
  if den < 2 * r then fl + 1
  else if 2 * r < den then fl
  else if fl % 2 = 0 then fl else fl + 1

/-- `snprintf` `%.6f` on the exact value of a finite double: optional
sign, integer part, and exactly six fractional digits. -/
def fmt6 (d : Dyadic) : String :=
  let sign := if d.num < 0 then "-" else ""
  let n := round6 d
  sign ++ Nat.repr (n / 1000000) ++ "." ++ sixDigits (n % 1000000)

/-- The full swipe-update message as `snprintf` would render it with an
unbounded buffer: deltas by `%.6f`, finger count by `%u`. -/
def swipeUpdateRaw (fingers : Nat) (dx dy : Dyadic) : String :=
  "\x7b\"SwipeUpdate\":\x7b\"fingers\":" ++ Nat.repr fingers ++
    ",\"dx\":" ++ fmt6 dx ++ ",\"dy\":" ++ fmt6 dy ++ "\x7d\x7d"

/-- `buildSwipeUpdateJson` from helpers.hpp: the message is rendered by
`snprintf` into a `char buf[256]`, so at most 255 characters survive
(the last byte holds the terminating NUL); longer renderings are
truncated. -/
def buildSwipeUpdateJson (fingers : Nat) (dx dy : Dyadic) : String :=
  String.mk ((swipeUpdateRaw fingers dx dy).data.take 255)

/-- The exact value of the IEEE-754 double nearest to 2.3, namely
2589569785738035 * 2^-50. -/
def dblTwoPointThree : Dyadic := ⟨2589569785738035, 50⟩

/-- The exact value of the IEEE-754 double 10.5, namely 21 * 2^-1. -/
def dblTenPointFive : Dyadic := ⟨21, 1⟩

/-! ### Swipe gesture state machine (main.cpp) -/

/-- A socket operation performed on the persistent swipe connection. -/
inductive IOEvent where
  | write (msg : String)
  | close
deriving DecidableEq, Repr

/-- The plugin's global swipe state: `g_swipeFd` (negative when no
connection is open) and `g_swipeFingers`. -/
structure SwipeState where
  swipeFd : Int
  swipeFingers : Nat
deriving DecidableEq, Repr

/-- What one callback invocation produces: the new global state, the
socket operations performed, and the value of `info.cancelled` after the
call (the host hands it in as `false`; a callback either leaves it or
sets it to `true`). -/
structure CallbackOut where
  state : SwipeState
  events : List IOEvent
  cancelled : Bool
deriving DecidableEq, Repr

/-- `swipeSend` from main.cpp: best-effort write of `json + "\n"` on the
persistent fd; a no-op when no connection is open. -/
def swipeSend (st : SwipeState) (json : String) : List IOEvent :=
  if st.swipeFd < 0 then [] else [IOEvent.write (json ++ "\n")]

/-- `swipeConnect` from main.cpp.  The OS is modelled by `os`: `some fd`
when socket+connect succeeds yielding descriptor `fd`, `none` when either
step fails (in which case the code stores -1 and reports failure). -/
def swipeConnect (os : Option Nat) (st : SwipeState) : SwipeState × Bool :=
  match os with
  | some fd => ({ st with swipeFd := (fd : Int) }, true)
  | none => ({ st with swipeFd := -1 }, false)

/-- `swipeDisconnect` from main.cpp: close the fd and mark it -1, only
when one is open. -/
def swipeDisconnect (st : SwipeState) : SwipeState × List IOEvent :=
  if 0 ≤ st.swipeFd then ({ st with swipeFd := -1 }, [IOEvent.close])
  else (st, [])

/-- The `swipeBegin` hook from main.cpp.  `evPayload` stands for the
opaque event payload, which the code never reads (the finger count is
hardcoded to 3); `os` is the connect oracle.  `info.cancelled` is set
unconditionally. -/
def swipeBeginCb (evPayload : Option Nat) (os : Option Nat)
    (st : SwipeState) : CallbackOut :=
  let _ := evPayload
  let st1 := { st with swipeFingers := 3 }
  match swipeConnect os st1 with
  | (st2, true) =>
      { state := st2, events := swipeSend st2 (buildSwipeBeginJson st2.swipeFingers),
        cancelled := true }
  | (st2, false) => { state := st2, events := [], cancelled := true }

/-- The `swipeUpdate` hook from main.cpp.  Returns immediately (leaving
`info.cancelled` untouched) when no connection is open.  `payload` is
the result of the `std::any_cast`: `some (fingers, dx, dy)` when the
cast succeeds, `none` when it throws — in which case the catch block
does nothing.  `info.cancelled` is set in either case. -/
def swipeUpdateCb (payload : Option (Nat × Dyadic × Dyadic)) (st : SwipeState) : CallbackOut :=
  if st.swipeFd < 0 then { state := st, events := [], cancelled := false }
  else
    match payload with
    | some (f, dx, dy) =>
        { state := st, events := swipeSend st (buildSwipeUpdateJson f dx dy),
          cancelled := true }
    | none => { state := st, events := [], cancelled := true }

/-- The `swipeEnd` hook from main.cpp: send `"SwipeEnd"`, disconnect,
set `info.cancelled`. -/
def swipeEndCb (st : SwipeState) : CallbackOut :=
  let ev1 := swipeSend st buildSwipeEndJson
  let p := swipeDisconnect st
  { state := p.1, events := ev1 ++ p.2, cancelled := true }

/-- A gesture event as delivered by the host to the hooks. -/
inductive HostEvent where
  | begin (os : Option Nat)
  | update (payload : Option (Nat × Dyadic × Dyadic))
  | finish
deriving DecidableEq, Repr

/-- Whether a host event is a swipe-begin. -/
def HostEvent.isBegin : HostEvent → Bool
  | .begin _ => true
  | _ => false

/-- Whether a host event is a swipe-end. -/
def HostEvent.isFinish : HostEvent → Bool
  | .finish => true
  | _ => false

/-- Dispatch one host event to the corresponding hook. -/
def stepEv (st : SwipeState) (e : HostEvent) : CallbackOut :=
  match e with
  | .begin os => swipeBeginCb none os st
  | .update p => swipeUpdateCb p st
  | .finish => swipeEndCb st

/-- Run a sequence of host events, collecting each callback's output. -/
def runOuts (st : SwipeState) : List HostEvent → List CallbackOut
  | [] => []
  | e :: es =>
    let o := stepEv st e
    o :: runOuts o.state es

/-! ### Spec-level predicate for the monitor-index encoder (claim C8) -/

/-- The value of a signless token body: defined only when the body is a
non-empty all-digit run whose value fits the sign's 32-bit range. -/
def tokVal (sgn : Bool) (bound : Nat) (body : List Char) : Option Int :=
  if body = [] ∨ ¬ body.all Char.isDigit then none
  else if bound < digitsToNat body then none
  else some (if sgn then -(digitsToNat body : Int) else (digitsToNat body : Int))

/-- The claim's reading of an integer token: an optional sign followed
only by digits, denoting a value within the range of a 32-bit int. -/
def intTokenVal (t : List Char) : Option Int :=
  if t.head? = some '-' then tokVal true 2147483648 t.tail
  else if t.head? = some '+' then tokVal false 2147483647 t.tail
  else tokVal false 2147483647 t

/-- The single-token condition on a list with leading whitespace already
skipped: the first maximal non-whitespace run is the only token (all
that follows it is whitespace) and it denotes a non-negative int. -/
def oneTokenCore (u : List Char) : Bool :=
  let t := u.takeWhile (fun c => !streamWs c)
  let r := u.dropWhile (fun c => !streamWs c)
  r.all streamWs &&
    match intTokenVal t with
    | some v => decide (0 ≤ v)
    | none => false

/-- The single-token condition over a raw character list: skip leading
whitespace, take the first token, and require everything after it to be
whitespace and the token itself to denote a non-negative int. -/
def oneNonNegIntToken (cs : List Char) : Bool :=
  oneTokenCore (cs.dropWhile streamWs)

/-- The success condition of the monitor-index builder on a list with
leading whitespace already skipped. -/
def monIdxOkCore (u : List Char) : Bool :=
  match readIntCore u with
  | none => false
  | some (v, rest) => !decide (v < 0) && (readTokenFrom rest).isNone

/-- The success condition of the monitor-index builder, expressed on the
character list it parses: the first extraction yields a non-negative
value and the leftover extraction finds nothing. -/
def monIdxOkChars (cs : List Char) : Bool :=
  monIdxOkCore (cs.dropWhile streamWs)

/-- Claim C8's statement of the accepted arguments, on strings. -/
def c8SpecOk (s : String) : Bool :=
  oneNonNegIntToken (trim s).data

end Hyprgrd

namespace Hyprgrd

example : buildGoJson "right" = ⟨true, "\x7b\"Go\":\"Right\"\x7d"⟩ := by decide
example : buildGoJson "  right  " = ⟨true, "\x7b\"Go\":\"Right\"\x7d"⟩ := by decide
example : (buildGoJson "LEFT").ok = false := by decide
example : buildSwitchJson "  3   4  " =
    ⟨true, "\x7b\"SwitchTo\":\x7b\"x\":3,\"y\":4\x7d\x7d"⟩ := by decide
example : (buildSwitchJson "0 0 junk").ok = true := by decide
example : (buildSwitchJson "3+4") =
    ⟨true, "\x7b\"SwitchTo\":\x7b\"x\":3,\"y\":4\x7d\x7d"⟩ := by decide
example : (buildMoveToMonitorIndexJson "42") =
    ⟨true, "\x7b\"MoveWindowToMonitorIndex\":42\x7d"⟩ := by decide
example : (buildMoveToMonitorIndexJson "1 2").ok = false := by decide
example : (buildMoveToMonitorIndexJson "1.5").ok = false := by decide
example : (buildMoveToMonitorIndexJson "-0").ok = true := by decide
example : socketPath (some "") = "/hyprgrd.sock" := by decide
example : fmt6 dblTwoPointThree.neg = "-2.300000" := by decide
example : fmt6 dblTenPointFive = "10.500000" := by decide
example : fmt6 ⟨0, 0⟩ = "0.000000" := by decide
example : buildSwipeUpdateJson 3 dblTenPointFive dblTwoPointThree.neg =
    "\x7b\"SwipeUpdate\":\x7b\"fingers\":3,\"dx\":10.500000,\"dy\":-2.300000\x7d\x7d" := by
  decide
example : buildSwipeBeginJson 3 = "\x7b\"SwipeBegin\":\x7b\"fingers\":3\x7d\x7d" := by decide
example : c8SpecOk "42" = true := by decide
example : c8SpecOk "1 2" = false := by decide
example : c8SpecOk "-0" = true := by decide
example : c8SpecOk "+7" = true := by decide
example : c8SpecOk "1.5" = false := by decide
example : (swipeBeginCb none none ⟨-1, 0⟩).cancelled = true := by decide
example : (swipeUpdateCb none ⟨3, 3⟩).events = [] := by decide

/-! ### Helper lemmas -/

/-- A digit character produced from a residue mod 10 is a decimal digit. -/
theorem digitChar_mod_isDigit (m : Nat) : (Nat.digitChar (m % 10)).isDigit = true :=
  (by decide : ∀ i : Fin 10, (Nat.digitChar i.val).isDigit = true)
    ⟨m % 10, Nat.mod_lt _ (by decide)⟩

/-- Running any begin-free event sequence from a state with no open
connection performs no socket operations, leaves the state unchanged,
and sets the cancellation flag exactly on end events. -/
theorem runOuts_idle (st : SwipeState) (h : st.swipeFd = -1) :
    ∀ evs : List HostEvent, (∀ e ∈ evs, e.isBegin = false) →
      runOuts st evs = evs.map (fun e => ⟨st, [], e.isFinish⟩) := by
  intro evs
  induction evs with
  | nil => intro _; rfl
  | cons e es ih =>
    intro hb
    have hbe : e.isBegin = false := hb e (List.mem_cons_self _ _)
    have hbs : ∀ e ∈ es, e.isBegin = false := fun x hx => hb x (List.mem_cons_of_mem _ hx)
    cases e with
    | begin os => simp [HostEvent.isBegin] at hbe
    | update p =>
      have hstep : stepEv st (.update p) = ⟨st, [], false⟩ := by
        simp [stepEv, swipeUpdateCb, h]
      simp [runOuts, hstep, HostEvent.isFinish, ih hbs]
    | finish =>
      have hstep : stepEv st .finish = ⟨st, [], true⟩ := by
        simp [stepEv, swipeEndCb, swipeSend, swipeDisconnect, h]
      simp [runOuts, hstep, HostEvent.isFinish, ih hbs]

/-- Negating "less than zero" is "at least zero", on decided Bools. -/
theorem not_lt_decide_int (v : Int) : (!decide (v < 0)) = decide (0 ≤ v) := by
  by_cases h : v < 0
  · simp [h]
  · simp [h]; omega

/-- Digit characters are not stream whitespace. -/
theorem isDigit_not_ws {c : Char} (h : c.isDigit = true) : streamWs c = false := by
  by_contra hw
  rw [Bool.not_eq_false] at hw
  simp only [streamWs, Bool.or_eq_true, decide_eq_true_eq] at hw
  rcases hw with ((((h1 | h1) | h1) | h1) | h1) | h1 <;> subst h1 <;>
    exact absurd h (by decide)

/-- Digit characters are not the minus sign. -/
theorem isDigit_ne_minus {c : Char} (h : c.isDigit = true) : c ≠ '-' := by
  rintro rfl; exact absurd h (by decide)

/-- Digit characters are not the plus sign. -/
theorem isDigit_ne_plus {c : Char} (h : c.isDigit = true) : c ≠ '+' := by
  rintro rfl; exact absurd h (by decide)

/-- The head of what `dropWhile` leaves fails the predicate. -/
theorem dropWhile_head_false {α : Type} {p : α → Bool} {c : α} {r : List α} :
    ∀ {l : List α}, l.dropWhile p = c :: r → p c = false := by
  intro l
  induction l with
  | nil => intro h; simp [List.dropWhile] at h
  | cons a t ih =>
    intro h
    rw [List.dropWhile_cons] at h
    by_cases hp : p a
    · rw [if_pos hp] at h; exact ih h
    · rw [if_neg hp] at h
      obtain ⟨rfl, -⟩ := List.cons.injEq .. ▸ h
      exact Bool.not_eq_true _ ▸ hp

/-- The leftover extraction finds nothing exactly when the remaining
characters are all whitespace. -/
theorem readTokenFrom_isNone (r : List Char) :
    (readTokenFrom r).isNone = r.all streamWs := by
  by_cases h : r.all streamWs = true
  · have hnil : r.dropWhile streamWs = [] :=
      List.dropWhile_eq_nil_iff.mpr (by simpa [List.all_eq_true] using h)
    simp [readTokenFrom, hnil, h]
  · have hne : r.dropWhile streamWs ≠ [] := by
      rw [Ne, List.dropWhile_eq_nil_iff]
      simpa [List.all_eq_true] using h
    rcases hd : r.dropWhile streamWs with - | ⟨c, v⟩
    · exact absurd hd hne
    · have hc : streamWs c = false := dropWhile_head_false hd
      simp [readTokenFrom, hd, hc, List.takeWhile_cons, Bool.not_eq_true _ ▸ hc,
        h]

/-- After a maximal digit run, the residue either starts with whitespace
(and then the token ends exactly at the digits and the leftover test
matches the all-whitespace test), or it continues the token with a
non-digit character (and then the token is not all digits and a leftover
token exists). -/
theorem rem_split (ds rem : List Char)
    (hrem : ∀ e w, rem = e :: w → e.isDigit = false) :
    (rem.takeWhile (fun c => !streamWs c) = [] ∧
     (readTokenFrom rem).isNone = rem.all streamWs ∧
     rem.dropWhile (fun c => !streamWs c) = rem) ∨
    ((ds ++ rem.takeWhile (fun c => !streamWs c)).all Char.isDigit = false ∧
     (readTokenFrom rem).isNone = false) := by
  rcases rem with - | ⟨e, w⟩
  · left; exact ⟨rfl, by simp [readTokenFrom_isNone], rfl⟩
  · have he : e.isDigit = false := hrem e w rfl
    by_cases hws : streamWs e
    · left
      refine ⟨?_, readTokenFrom_isNone _, ?_⟩
      · simp [List.takeWhile_cons, hws]
      · simp [List.dropWhile_cons, hws]
    · right
      constructor
      · have ht : (e :: w).takeWhile (fun c => !streamWs c) =
            e :: w.takeWhile (fun c => !streamWs c) := by
          simp [List.takeWhile_cons, hws]
        rw [ht]
        simp [List.all_append, he]
      · rw [readTokenFrom_isNone]
        simp [List.all_cons, hws]
/-- Reading digits past an all-digit run stops exactly at the residue. -/
theorem takeWhile_digit_append (ds rem : List Char)
    (hall : ∀ a ∈ ds, a.isDigit = true)
    (hremd : ∀ e w, rem = e :: w → e.isDigit = false) :
    (ds ++ rem).takeWhile Char.isDigit = ds := by
  rw [List.takeWhile_append_of_pos hall]
  rcases rem with - | ⟨e, w⟩
  · simp
  · simp [List.takeWhile_cons, hremd e w rfl]

/-- Dropping digits past an all-digit run leaves exactly the residue. -/
theorem dropWhile_digit_append (ds rem : List Char)
    (hall : ∀ a ∈ ds, a.isDigit = true)
    (hremd : ∀ e w, rem = e :: w → e.isDigit = false) :
    (ds ++ rem).dropWhile Char.isDigit = rem := by
  rw [List.dropWhile_append_of_pos hall]
  rcases rem with - | ⟨e, w⟩
  · simp
  · simp [List.dropWhile_cons, hremd e w rfl]

/-- Stream int extraction on input starting with neither sign. -/
theorem readIntCore_nosign {c : Char} {v : List Char} (hm : c ≠ '-') (hp : c ≠ '+') :
    readIntCore (c :: v) = readSigned false 2147483647 (c :: v) := by
  unfold readIntCore
  rw [if_neg (by simp [hm]), if_neg (by simp [hp])]

/-- Token valuation on a token starting with neither sign. -/
theorem intTokenVal_nosign {c : Char} {t : List Char} (hm : c ≠ '-') (hp : c ≠ '+') :
    intTokenVal (c :: t) = tokVal false 2147483647 (c :: t) := by
  unfold intTokenVal
  rw [if_neg (by simp [hm]), if_neg (by simp [hp])]

/-- Branch lemma shared by all sign cases: once the sign is processed,
the stream success condition (digits read, in range, non-negative, no
leftover token) agrees with the token grammar (the whole token is the
digit run, in range, non-negative, and only whitespace follows). -/
theorem readSigned_eq (sgn : Bool) (bound : Nat) (ds rem : List Char)
    (hall : ∀ a ∈ ds, a.isDigit = true)
    (hremd : ∀ e w, rem = e :: w → e.isDigit = false) :
    (match readSigned sgn bound (ds ++ rem) with
     | none => false
     | some (v, rest) => !decide (v < 0) && (readTokenFrom rest).isNone)
    = ((rem.dropWhile (fun x => !streamWs x)).all streamWs &&
       match tokVal sgn bound (ds ++ rem.takeWhile (fun x => !streamWs x)) with
       | some v => decide (0 ≤ v)
       | none => false) := by
  have htdig := takeWhile_digit_append ds rem hall hremd
  have hddig := dropWhile_digit_append ds rem hall hremd
  have hallb : ds.all Char.isDigit = true := List.all_eq_true.mpr hall
  have hread : readSigned sgn bound (ds ++ rem) =
      (if ds = [] then none
       else if bound < digitsToNat ds then none
       else some ((if sgn then -(digitsToNat ds : Int) else (digitsToNat ds : Int)), rem)) := by
    simp only [readSigned]
    rw [htdig, hddig]
  rw [hread]
  rcases rem_split ds rem hremd with ⟨h1, h2, h3⟩ | ⟨h1, h2⟩
  · rw [h1, List.append_nil, h3]
    by_cases hds : ds = []
    · rw [if_pos hds]
      have htv : tokVal sgn bound ds = none := by
        simp only [tokVal]
        rw [if_pos (Or.inl hds)]
      rw [htv]
      show false = (rem.all streamWs && false)
      rw [Bool.and_false]
    · rw [if_neg hds]
      by_cases hov : bound < digitsToNat ds
      · rw [if_pos hov]
        have htv : tokVal sgn bound ds = none := by
          simp only [tokVal]
          rw [if_neg (by simp [hds, hallb]), if_pos hov]
        rw [htv]
        show false = (rem.all streamWs && false)
        rw [Bool.and_false]
      · rw [if_neg hov]
        have htv : tokVal sgn bound ds =
            some (if sgn then -(digitsToNat ds : Int) else (digitsToNat ds : Int)) := by
          simp only [tokVal]
          rw [if_neg (by simp [hds, hallb]), if_neg hov]
        rw [htv]
        show ((!decide ((if sgn then -(digitsToNat ds : Int) else (digitsToNat ds : Int)) < 0)) &&
              (readTokenFrom rem).isNone)
            = (rem.all streamWs &&
              decide (0 ≤ (if sgn then -(digitsToNat ds : Int) else (digitsToNat ds : Int))))
        rw [h2, not_lt_decide_int, Bool.and_comm]
  · have htv : tokVal sgn bound (ds ++ rem.takeWhile (fun x => !streamWs x)) = none := by
      simp only [tokVal]
      rw [if_pos (Or.inr (by simp [h1]))]
    rw [htv]
    by_cases hds : ds = []
    · rw [if_pos hds]
      show false = ((rem.dropWhile (fun x => !streamWs x)).all streamWs && false)
      rw [Bool.and_false]
    · rw [if_neg hds]
      by_cases hov : bound < digitsToNat ds
      · rw [if_pos hov]
        show false = ((rem.dropWhile (fun x => !streamWs x)).all streamWs && false)
        rw [Bool.and_false]
      · rw [if_neg hov]
        show ((!decide ((if sgn then -(digitsToNat ds : Int) else (digitsToNat ds : Int)) < 0)) &&
              (readTokenFrom rem).isNone)
            = ((rem.dropWhile (fun x => !streamWs x)).all streamWs && false)
        rw [h2, Bool.and_false, Bool.and_false]

/-- Digit characters are not trim whitespace. -/
theorem isDigit_not_trimWs {c : Char} (h : c.isDigit = true) : trimWs c = false := by
  by_contra hw
  rw [Bool.not_eq_false] at hw
  simp only [trimWs, Bool.or_eq_true, decide_eq_true_eq] at hw
  rcases hw with ((h1 | h1) | h1) | h1 <;> subst h1 <;> exact absurd h (by decide)

/-- `std::to_string` of a non-negative int prints its decimal digits. -/
theorem intStr_natCast (n : Nat) : intStr (n : Int) = Nat.repr n := by
  unfold intStr
  rw [if_neg (by omega)]
  simp

/-- Stream int extraction ignores one leading whitespace character. -/
theorem readIntFrom_cons_ws {c : Char} (h : streamWs c = true) (cs : List Char) :
    readIntFrom (c :: cs) = readIntFrom cs := by
  unfold readIntFrom
  rw [List.dropWhile_cons_of_pos h]

/-- Stream int extraction on a digit run followed by a non-digit residue
reads exactly the run and leaves the residue. -/
theorem readIntFrom_digits (ds rest : List Char) (hne : ds ≠ [])
    (hall : ∀ c ∈ ds, c.isDigit = true) (hbound : digitsToNat ds ≤ 2147483647)
    (hrest : ∀ e w, rest = e :: w → e.isDigit = false) :
    readIntFrom (ds ++ rest) = some ((digitsToNat ds : Int), rest) := by
  obtain ⟨c, ds1, rfl⟩ : ∃ c w, ds = c :: w := by
    rcases ds with - | ⟨c, w⟩
    · exact absurd rfl hne
    · exact ⟨c, w, rfl⟩
  have hcd : c.isDigit = true := hall c (List.mem_cons_self c ds1)
  have hcons : (c :: ds1) ++ rest = c :: (ds1 ++ rest) := List.cons_append c ds1 rest
  unfold readIntFrom
  rw [hcons, List.dropWhile_cons_of_neg (by simp [isDigit_not_ws hcd]),
    readIntCore_nosign (isDigit_ne_minus hcd) (isDigit_ne_plus hcd)]
  simp only [readSigned]
  rw [← hcons, takeWhile_digit_append (c :: ds1) rest hall hrest,
    dropWhile_digit_append (c :: ds1) rest hall hrest,
    if_neg (by simp), if_neg (Nat.not_lt.mpr hbound)]
  rfl

/-- Trimming an argument of the shape digits-space-digits-space-junk
keeps the two digit runs and their separator intact and leaves behind a
residue that is empty or begins with the second space. -/
theorem trim_two_ints (ds1 ds2 junk : List Char) (h1ne : ds1 ≠ [])
    (h1all : ∀ c ∈ ds1, c.isDigit = true) (h2ne : ds2 ≠ [])
    (h2all : ∀ c ∈ ds2, c.isDigit = true) :
    ∃ t : List Char,
      (trim (String.mk ((ds1 ++ ' ' :: ds2) ++ ' ' :: junk))).data
        = (ds1 ++ ' ' :: ds2) ++ t ∧
      ∀ e w, t = e :: w → e.isDigit = false := by
  obtain ⟨c, ds1t, rfl⟩ : ∃ c w, ds1 = c :: w := by
    rcases ds1 with - | ⟨c, w⟩
    · exact absurd rfl h1ne
    · exact ⟨c, w, rfl⟩
  have hc : trimWs c = false := isDigit_not_trimWs (h1all c (List.mem_cons_self c ds1t))
  obtain ⟨d, ds2r, hds2r⟩ : ∃ d w, ds2.reverse = d :: w := by
    rcases hr : ds2.reverse with - | ⟨d, w⟩
    · exact absurd (List.reverse_eq_nil_iff.mp hr) h2ne
    · exact ⟨d, w, rfl⟩
  have hd : trimWs d = false := by
    refine isDigit_not_trimWs (h2all d ?_)
    rw [← List.mem_reverse, hds2r]
    exact List.mem_cons_self d ds2r
  have hdata : (trim (String.mk (((c :: ds1t) ++ ' ' :: ds2) ++ ' ' :: junk))).data
      = ((((((c :: ds1t) ++ ' ' :: ds2) ++ ' ' :: junk).dropWhile
          trimWs).reverse).dropWhile trimWs).reverse := rfl
  have hconsform : ((c :: ds1t) ++ ' ' :: ds2) ++ ' ' :: junk
      = c :: ((ds1t ++ ' ' :: ds2) ++ ' ' :: junk) := by
    simp
  have hlead : (((c :: ds1t) ++ ' ' :: ds2) ++ ' ' :: junk).dropWhile trimWs
      = ((c :: ds1t) ++ ' ' :: ds2) ++ ' ' :: junk := by
    rw [hconsform, List.dropWhile_cons_of_neg (by simp [hc]), ← hconsform]
  have hrev : (((c :: ds1t) ++ ' ' :: ds2) ++ ' ' :: junk).reverse
      = junk.reverse ++ ' ' :: ((c :: ds1t) ++ ' ' :: ds2).reverse := by
    rw [List.reverse_append, List.reverse_cons]
    simp [List.append_assoc]
  have hArev : ((c :: ds1t) ++ ' ' :: ds2).reverse
      = d :: (ds2r ++ ' ' :: (c :: ds1t).reverse) := by
    rw [List.reverse_append, List.reverse_cons, hds2r]
    simp [List.append_assoc]
  rw [hdata, hlead, hrev, List.dropWhile_append]
  rcases hJ : junk.reverse.dropWhile trimWs with - | ⟨j, js⟩
  · refine ⟨[], ?_, by intro e w h; cases h⟩
    rw [if_pos (by simp [hJ]), List.dropWhile_cons_of_pos (by decide), hArev,
      List.dropWhile_cons_of_neg (by simp [hd]), ← hArev, List.reverse_reverse,
      List.append_nil]
  · refine ⟨' ' :: (j :: js).reverse, ?_, ?_⟩
    · rw [if_neg (by simp [hJ]), List.reverse_append, List.reverse_cons,
        List.reverse_reverse]
      simp [List.append_assoc]
    · intro e w h
      injection h with h1 h2
      rw [← h1]
      decide

/-- The stream success condition of the monitor-index builder agrees
with the claim's single-token grammar, on lists with leading whitespace
already skipped. -/
theorem monIdxOkCore_eq_oneTokenCore (u : List Char) :
    monIdxOkCore u = oneTokenCore u := by
  rcases u with - | ⟨c, v⟩
  · rfl
  obtain ⟨ds, rem, rfl, hall, hremd⟩ :
      ∃ ds rem, v = ds ++ rem ∧ (∀ a ∈ ds, a.isDigit = true) ∧
        (∀ e w, rem = e :: w → e.isDigit = false) :=
    ⟨v.takeWhile Char.isDigit, v.dropWhile Char.isDigit,
      (List.takeWhile_append_dropWhile (p := Char.isDigit) (l := v)).symm,
      fun a ha => List.mem_takeWhile_imp ha,
      fun e w hw => dropWhile_head_false hw⟩
  have hallnw : ∀ a ∈ ds, ((fun x => !streamWs x) a : Bool) = true := fun a ha => by
    simp [isDigit_not_ws (hall a ha)]
  have htnw : (ds ++ rem).takeWhile (fun x => !streamWs x)
      = ds ++ rem.takeWhile (fun x => !streamWs x) :=
    List.takeWhile_append_of_pos hallnw
  have hdnw : (ds ++ rem).dropWhile (fun x => !streamWs x)
      = rem.dropWhile (fun x => !streamWs x) :=
    List.dropWhile_append_of_pos hallnw
  by_cases hm : c = '-'
  · subst hm
    have hR : oneTokenCore ('-' :: (ds ++ rem)) =
        ((rem.dropWhile (fun x => !streamWs x)).all streamWs &&
         match tokVal true 2147483648 (ds ++ rem.takeWhile (fun x => !streamWs x)) with
         | some v => decide (0 ≤ v)
         | none => false) := by
      simp only [oneTokenCore]
      rw [List.takeWhile_cons_of_pos (by decide), List.dropWhile_cons_of_pos (by decide),
        htnw, hdnw]
      rfl
    rw [hR]
    exact readSigned_eq true 2147483648 ds rem hall hremd
  · by_cases hp : c = '+'
    · subst hp
      have hR : oneTokenCore ('+' :: (ds ++ rem)) =
          ((rem.dropWhile (fun x => !streamWs x)).all streamWs &&
           match tokVal false 2147483647 (ds ++ rem.takeWhile (fun x => !streamWs x)) with
           | some v => decide (0 ≤ v)
           | none => false) := by
        simp only [oneTokenCore]
        rw [List.takeWhile_cons_of_pos (by decide), List.dropWhile_cons_of_pos (by decide),
          htnw, hdnw]
        rfl
      rw [hR]
      exact readSigned_eq false 2147483647 ds rem hall hremd
    · by_cases hcd : c.isDigit
      · have hcnw : ((fun x => !streamWs x) c : Bool) = true := by
          simp [isDigit_not_ws hcd]
        have hL : monIdxOkCore (c :: (ds ++ rem)) =
            (match readSigned false 2147483647 ((c :: ds) ++ rem) with
             | none => false
             | some (v, rest) => !decide (v < 0) && (readTokenFrom rest).isNone) := by
          simp only [monIdxOkCore]
          rw [readIntCore_nosign (isDigit_ne_minus hcd) (isDigit_ne_plus hcd)]
          rfl
        have hR : oneTokenCore (c :: (ds ++ rem)) =
            ((rem.dropWhile (fun x => !streamWs x)).all streamWs &&
             match tokVal false 2147483647 ((c :: ds) ++ rem.takeWhile (fun x => !streamWs x)) with
             | some v => decide (0 ≤ v)
             | none => false) := by
          simp only [oneTokenCore]
          rw [@List.takeWhile_cons_of_pos _ (fun x => !streamWs x) c (ds ++ rem) hcnw,
            @List.dropWhile_cons_of_pos _ (fun x => !streamWs x) c (ds ++ rem) hcnw,
            htnw, hdnw,
            intTokenVal_nosign (isDigit_ne_minus hcd) (isDigit_ne_plus hcd)]
          rfl
        rw [hL, hR]
        exact readSigned_eq false 2147483647 (c :: ds) rem
          (fun a ha => by
            rcases List.mem_cons.mp ha with rfl | ha
            · exact hcd
            · exact hall a ha)
          hremd
      · have hL : monIdxOkCore (c :: (ds ++ rem)) = false := by
          simp only [monIdxOkCore]
          rw [readIntCore_nosign hm hp]
          simp [readSigned, List.takeWhile_cons, hcd]
        rw [hL]
        have hcdf : c.isDigit = false := by simpa using hcd
        by_cases hws : streamWs c
        · simp only [oneTokenCore]
          rw [@List.takeWhile_cons_of_neg _ (fun x => !streamWs x) c (ds ++ rem) (by simp [hws]),
            @List.dropWhile_cons_of_neg _ (fun x => !streamWs x) c (ds ++ rem) (by simp [hws])]
          simp [intTokenVal, tokVal]
        · have hnws : ((fun x => !streamWs x) c : Bool) = true := by simp [hws]
          simp only [oneTokenCore]
          rw [@List.takeWhile_cons_of_pos _ (fun x => !streamWs x) c (ds ++ rem) hnws,
            @List.dropWhile_cons_of_pos _ (fun x => !streamWs x) c (ds ++ rem) hnws,
            htnw, hdnw, intTokenVal_nosign hm hp]
          simp [tokVal, hcdf]

/-! ### Claim theorems -/

/-- C1 counterexample: with the daemon unreachable, a swipe-begin in the
Idle state still sets the host's cancellation flag, refuting the claim
that the callback reports "do not claim". -/
theorem claim_c1_cex :
    ¬ ((swipeBeginCb none none ⟨-1, 0⟩).state.swipeFd = -1 ∧
       (swipeBeginCb none none ⟨-1, 0⟩).cancelled = false) := by decide

/-- C1 (amended): when opening the persistent connection fails on a
swipe-begin in the Idle state, the session remains Idle (fd stays -1)
and nothing is written, but the callback still sets the host's
cancellation flag, claiming the gesture. -/
theorem claim_c1_amended :
    ∀ (p : Option Nat) (st : SwipeState), st.swipeFd = -1 →
      (swipeBeginCb p none st).state.swipeFd = -1 ∧
      (swipeBeginCb p none st).events = [] ∧
      (swipeBeginCb p none st).cancelled = true :=
  fun _ _ _ => ⟨rfl, rfl, rfl⟩

/-- Witness for C1 at the concrete Idle state. -/
theorem claim_c1_witness :
    (⟨-1, 0⟩ : SwipeState).swipeFd = -1 ∧
    ((swipeBeginCb none none ⟨-1, 0⟩).state.swipeFd = -1 ∧
     (swipeBeginCb none none ⟨-1, 0⟩).events = [] ∧
     (swipeBeginCb none none ⟨-1, 0⟩).cancelled = true) :=
  ⟨rfl, claim_c1_amended none ⟨-1, 0⟩ rfl⟩

/-- C2 counterexample: with an open connection and an undecodable
payload, the update callback writes nothing at all — in particular not
the zero-delta Update message the claim describes. -/
theorem claim_c2_cex :
    ¬ ((swipeUpdateCb none ⟨3, 3⟩).events
        = [IOEvent.write (buildSwipeUpdateJson 3 ⟨0, 0⟩ ⟨0, 0⟩ ++ "\n")] ∧
       (swipeUpdateCb none ⟨3, 3⟩).cancelled = true) := by decide

/-- C2 (amended): when the update payload cannot be decoded while a
session is Active, the catch block does nothing: no message is sent and
the state is unchanged, but the callback still reports "claim". -/
theorem claim_c2_amended :
    ∀ st : SwipeState, 0 ≤ st.swipeFd →
      swipeUpdateCb none st = ⟨st, [], true⟩ := by
  intro st h
  simp [swipeUpdateCb, show ¬ st.swipeFd < 0 by omega]

/-- Witness for C2 at a concrete Active state. -/
theorem claim_c2_witness :
    (0 : Int) ≤ (⟨3, 3⟩ : SwipeState).swipeFd ∧
    swipeUpdateCb none ⟨3, 3⟩ = ⟨⟨3, 3⟩, [], true⟩ :=
  ⟨by decide, claim_c2_amended ⟨3, 3⟩ (by decide)⟩

/-- C3 (code-bug evaluation): the dispatcher documentation promises
case-insensitive directions, but only all-lower-case and
first-letter-capitalized spellings are accepted; "LEFT", " rIGHT " and
"uP" are rejected by the direction builders. -/
theorem claim_c3_bug :
    buildGoJson "LEFT" = ⟨false, "invalid direction: LEFT"⟩ ∧
    (buildMoveGoJson " rIGHT ").ok = false ∧
    (buildMoveToMonitorJson "uP").ok = false ∧
    buildGoJson "left" = ⟨true, "\x7b\"Go\":\"Left\"\x7d"⟩ ∧
    buildGoJson "Left" = ⟨true, "\x7b\"Go\":\"Left\"\x7d"⟩ := by decide

/-- C4 counterexample: trailing garbage after the two integers is
accepted by the switch encoder, refuting the claimed ValidationError. -/
theorem claim_c4_cex : (buildSwitchJson "0 0 junk").ok = true := by decide

/-- C4 (amended): the switch encoder parses two integers greedily from
the trimmed argument.  Universally: any argument of the shape
digits-space-digits-space-junk is accepted with the junk ignored, for
every junk whatsoever; any argument whose first extraction fails, whose
second extraction fails, or whose extracted values include a negative
one is rejected; and the claim's concrete examples evaluate as stated
(including "3 4junk", where the trailing garbage abuts the digits). -/
theorem claim_c4_amended :
    (∀ (ds1 ds2 junk : List Char),
      ds1 ≠ [] → (∀ c ∈ ds1, c.isDigit = true) → digitsToNat ds1 ≤ 2147483647 →
      ds2 ≠ [] → (∀ c ∈ ds2, c.isDigit = true) → digitsToNat ds2 ≤ 2147483647 →
      buildSwitchJson (String.mk ((ds1 ++ ' ' :: ds2) ++ ' ' :: junk))
        = ⟨true, "\x7b\"SwitchTo\":\x7b\"x\":" ++ Nat.repr (digitsToNat ds1) ++
                 ",\"y\":" ++ Nat.repr (digitsToNat ds2) ++ "\x7d\x7d"⟩) ∧
    (∀ s : String, readIntFrom (trim s).data = none → (buildSwitchJson s).ok = false) ∧
    (∀ (s : String) (col : Int) (r1 : List Char),
      readIntFrom (trim s).data = some (col, r1) → readIntFrom r1 = none →
      (buildSwitchJson s).ok = false) ∧
    (∀ (s : String) (col row : Int) (r1 r2 : List Char),
      readIntFrom (trim s).data = some (col, r1) →
      readIntFrom r1 = some (row, r2) → col < 0 ∨ row < 0 →
      (buildSwitchJson s).ok = false) ∧
    buildSwitchJson "0 0" = ⟨true, "\x7b\"SwitchTo\":\x7b\"x\":0,\"y\":0\x7d\x7d"⟩ ∧
    buildSwitchJson "3 4junk" = ⟨true, "\x7b\"SwitchTo\":\x7b\"x\":3,\"y\":4\x7d\x7d"⟩ ∧
    buildSwitchJson "  3   4  " = ⟨true, "\x7b\"SwitchTo\":\x7b\"x\":3,\"y\":4\x7d\x7d"⟩ ∧
    (["-1 0", "0 -1", "2", "", "abc def", "1.5 2"].all
      (fun s => !(buildSwitchJson s).ok)) = true := by
  refine ⟨?_, ?_, ?_, ?_, by decide, by decide, by decide, by decide⟩
  · intro ds1 ds2 junk h1ne h1all h1b h2ne h2all h2b
    obtain ⟨t, ht, htd⟩ := trim_two_ints ds1 ds2 junk h1ne h1all h2ne h2all
    have hshape : (ds1 ++ ' ' :: ds2) ++ t = ds1 ++ ' ' :: (ds2 ++ t) := by
      simp
    have hp1 : readIntFrom (ds1 ++ ' ' :: (ds2 ++ t))
        = some ((digitsToNat ds1 : Int), ' ' :: (ds2 ++ t)) :=
      readIntFrom_digits ds1 (' ' :: (ds2 ++ t)) h1ne h1all h1b
        (fun e w hw => by
          injection hw with he _
          rw [← he]
          decide)
    have hp2 : readIntFrom (' ' :: (ds2 ++ t)) = some ((digitsToNat ds2 : Int), t) := by
      rw [readIntFrom_cons_ws (by decide)]
      exact readIntFrom_digits ds2 t h2ne h2all h2b htd
    simp only [buildSwitchJson, ht, hshape, hp1, hp2]
    rw [if_neg (by omega), intStr_natCast, intStr_natCast]
  · intro s h
    simp [buildSwitchJson, h]
  · intro s col r1 h1 h2
    simp [buildSwitchJson, h1, h2]
  · intro s col row r1 r2 h1 h2 hneg
    simp only [buildSwitchJson, h1, h2]
    rw [if_pos hneg]

/-- Witness for C4 at a concrete digits-space-digits-space-junk input. -/
theorem claim_c4_witness :
    buildSwitchJson (String.mk ((['1'] ++ ' ' :: ['2']) ++ ' ' :: ['j', 'u', 'n', 'k']))
      = ⟨true, "\x7b\"SwitchTo\":\x7b\"x\":" ++ Nat.repr (digitsToNat ['1']) ++
               ",\"y\":" ++ Nat.repr (digitsToNat ['2']) ++ "\x7d\x7d"⟩ :=
  claim_c4_amended.1 ['1'] ['2'] ['j', 'u', 'n', 'k'] (by decide) (by decide)
    (by decide) (by decide) (by decide) (by decide)

/-- C5 counterexample: with the runtime-dir variable set to the empty
string the code resolves to "/hyprgrd.sock", not to the claimed
"/tmp/hyprgrd.sock" fallback. -/
theorem claim_c5_cex :
    socketPath (some "") ≠ "/tmp/hyprgrd.sock" ∧
    socketPath (some "") = "/hyprgrd.sock" := by decide

/-- C5 (amended): the endpoint resolves to XDG_RUNTIME_DIR ++
"/hyprgrd.sock" whenever the variable is set — even to the empty
string — and to "/tmp/hyprgrd.sock" only when it is unset. -/
theorem claim_c5_amended :
    (∀ r : String, socketPath (some r) = r ++ "/hyprgrd.sock") ∧
    socketPath none = "/tmp/hyprgrd.sock" :=
  ⟨fun _ => rfl, rfl⟩

/-- C6 counterexample: after a swipe-begin whose connect failed, the
very next swipe-end still sets the cancellation flag, refuting the
claim that it reports "do not claim". -/
theorem claim_c6_cex :
    (swipeEndCb (swipeBeginCb none none ⟨-1, 0⟩).state).cancelled ≠ false := by decide

/-- C6 (amended): after a swipe-begin in which the connect failed, every
subsequent update and end until the next begin performs no socket
operation and leaves the state unchanged; updates report "do not claim"
but end events still set the cancellation flag. -/
theorem claim_c6_amended :
    ∀ (p : Option Nat) (st : SwipeState) (evs : List HostEvent),
      (∀ e ∈ evs, e.isBegin = false) →
      runOuts (swipeBeginCb p none st).state evs =
        evs.map (fun e => ⟨(swipeBeginCb p none st).state, [], e.isFinish⟩) :=
  fun p st evs h => runOuts_idle (swipeBeginCb p none st).state rfl evs h

/-- Witness for C6 on a concrete begin-free trace. -/
theorem claim_c6_witness :
    (∀ e ∈ ([.update none, .update (some (3, ⟨1, 0⟩, ⟨-1, 0⟩)), .finish] :
        List HostEvent), e.isBegin = false) ∧
    runOuts (swipeBeginCb none none ⟨7, 0⟩).state
        [.update none, .update (some (3, ⟨1, 0⟩, ⟨-1, 0⟩)), .finish] =
      ([.update none, .update (some (3, ⟨1, 0⟩, ⟨-1, 0⟩)), .finish] :
        List HostEvent).map
        (fun e => ⟨(swipeBeginCb none none ⟨7, 0⟩).state, [], e.isFinish⟩) :=
  ⟨by decide, claim_c6_amended none ⟨7, 0⟩ _ (by decide)⟩

/-- C7 (confirmed): a second consecutive swipe-end performs no socket
operation and leaves the state unchanged, and closing with no open
connection is a no-op; both callbacks are total functions, so no error
can be raised. -/
theorem claim_c7 :
    (∀ st : SwipeState,
      (swipeEndCb (swipeEndCb st).state).events = [] ∧
      (swipeEndCb (swipeEndCb st).state).state = (swipeEndCb st).state) ∧
    (∀ f : Nat, swipeDisconnect ⟨-1, f⟩ = (⟨-1, f⟩, [])) := by
  constructor
  · intro st
    by_cases h : 0 ≤ st.swipeFd <;>
      simp [swipeEndCb, swipeDisconnect, swipeSend, h]
  · intro f; rfl

/-- C10 (confirmed): the begin callback records fingers = 3 regardless
of the event payload, and on a successful connect sends exactly the
hardcoded Begin message. -/
theorem claim_c10 :
    (∀ (p os : Option Nat) (st : SwipeState),
      (swipeBeginCb p os st).state.swipeFingers = 3) ∧
    (∀ (p : Option Nat) (fd : Nat) (st : SwipeState),
      (swipeBeginCb p (some fd) st).events
        = [IOEvent.write "\x7b\"SwipeBegin\":\x7b\"fingers\":3\x7d\x7d\n"]) := by
  constructor
  · intro p os st; cases os <;> rfl
  · intro p fd st
    simp [swipeBeginCb, swipeConnect, swipeSend, buildSwipeBeginJson,
      show ¬ ((fd : Int) < 0) by omega]
    rfl

/-- C8 (confirmed): the monitor-index encoder accepts exactly the
arguments whose trimmed text is one whitespace-delimited token denoting
a non-negative 32-bit integer; "42" produces the exact wire message and
the claim's four bad inputs are all rejected. -/
theorem claim_c8 :
    (∀ s : String, (buildMoveToMonitorIndexJson s).ok = c8SpecOk s) ∧
    buildMoveToMonitorIndexJson "42" =
      ⟨true, "\x7b\"MoveWindowToMonitorIndex\":42\x7d"⟩ ∧
    (["-1", "1.5", "1 2", "abc"].all
      (fun s => !(buildMoveToMonitorIndexJson s).ok)) = true := by
  refine ⟨?_, by decide, by decide⟩
  intro s
  have h1 : (buildMoveToMonitorIndexJson s).ok = monIdxOkChars (trim s).data := by
    rw [show monIdxOkChars (trim s).data =
        (match readIntFrom (trim s).data with
         | none => false
         | some (v, rest) => !decide (v < 0) && (readTokenFrom rest).isNone) from rfl]
    unfold buildMoveToMonitorIndexJson
    rcases h : readIntFrom (trim s).data with - | ⟨v, rest⟩
    · simp [h]
    · simp only [h]
      by_cases hv : v < 0
      · simp [hv]
      · rcases ht : readTokenFrom rest with - | t <;> simp [ht, hv]
  exact h1.trans (monIdxOkCore_eq_oneTokenCore _)

/-- The exact value of the IEEE-754 double 2^900, written as a decimal
numeral so that kernel reduction needs no deep power recursion. -/
def dblTwoPow900 : Dyadic :=
  ⟨8452712498170643941637436558664265704301557216577944354047371344426782440907597751590676094202515006314790319892114058862117560952042968596008623655407033230534186943984081346699704282822823056848387726531379014466368452684024987821414350380272583623832617294363807973376, 0⟩

set_option maxRecDepth 8000 in
/-- C9 counterexample: at the (exactly representable) double 2^900 the
rendered message overflows snprintf's 256-byte buffer, so the encoding
is cut to 255 characters and contains no decimal point at all - neither
delta carries six fractional digits. -/
theorem claim_c9_cex :
    ((buildSwipeUpdateJson 3 dblTwoPow900 ⟨0, 0⟩).data.all
      (fun c => !(c == '.'))) = true ∧
    (buildSwipeUpdateJson 3 dblTwoPow900 ⟨0, 0⟩).length = 255 := by decide

/-- C9 (amended): whenever the rendered message fits snprintf's buffer
(at most 255 characters) the encoder emits it untruncated, every delta
rendered by the %.6f model carries exactly six fractional digits, and
the double nearest -2.3 is encoded as -2.300000 in the Update message,
never rounded to -2. -/
theorem claim_c9_amended :
    (∀ (f : Nat) (dx dy : Dyadic),
      (swipeUpdateRaw f dx dy).length ≤ 255 →
      buildSwipeUpdateJson f dx dy = swipeUpdateRaw f dx dy) ∧
    (∀ d : Dyadic, ∃ (a : String) (l : List Char),
      fmt6 d = a ++ "." ++ String.mk l ∧ l.length = 6 ∧
      ∀ c ∈ l, c.isDigit = true) ∧
    buildSwipeUpdateJson 3 dblTenPointFive dblTwoPointThree.neg =
      "\x7b\"SwipeUpdate\":\x7b\"fingers\":3,\"dx\":10.500000,\"dy\":-2.300000\x7d\x7d" := by
  refine ⟨?_, ?_, by decide⟩
  · intro f dx dy h
    have hlen : (swipeUpdateRaw f dx dy).data.length ≤ 255 := h
    unfold buildSwipeUpdateJson
    rw [List.take_of_length_le hlen]
  · intro d
    refine ⟨(if d.num < 0 then "-" else "") ++ Nat.repr (round6 d / 1000000),
      [Nat.digitChar (round6 d % 1000000 / 100000 % 10),
       Nat.digitChar (round6 d % 1000000 / 10000 % 10),
       Nat.digitChar (round6 d % 1000000 / 1000 % 10),
       Nat.digitChar (round6 d % 1000000 / 100 % 10),
       Nat.digitChar (round6 d % 1000000 / 10 % 10),
       Nat.digitChar (round6 d % 1000000 % 10)], ?_, rfl, ?_⟩
    · simp [fmt6, sixDigits, String.append_assoc]
    · intro c hc
      simp only [List.mem_cons, List.not_mem_nil, or_false] at hc
      rcases hc with h | h | h | h | h | h <;> subst h <;>
        exact digitChar_mod_isDigit _

/-- Witness for C9 at the spec's concrete update event, whose message
fits the buffer. -/
theorem claim_c9_witness :
    (swipeUpdateRaw 3 dblTenPointFive dblTwoPointThree.neg).length ≤ 255 ∧
    buildSwipeUpdateJson 3 dblTenPointFive dblTwoPointThree.neg
      = swipeUpdateRaw 3 dblTenPointFive dblTwoPointThree.neg :=
  ⟨by decide, claim_c9_amended.1 3 dblTenPointFive dblTwoPointThree.neg (by decide)⟩

end Hyprgrd
